import Mathlib

/-!
Verification of the training / evaluation core of the water-meter
segmentation repository: metric functions, early stopping, best-model
promotion, paired augmentation, MLflow health checking and the data
validator, shallowly embedded from the Python sources.
-/

namespace WMS

/-! ## Metric functions (train.py lines 38-86) -/

/-- Smoothing constant `smooth = 1e-6` shared by `dice_coeff` and
`iou_coeff` (train.py lines 38 and 48). -/
def smooth : ℚ := 1 / 1000000

/-- `(pred * target).sum()` over the flattened arrays (train.py lines 41
and 51): elementwise product summed over the common length. -/
def inter (pred target : List ℚ) : ℚ :=
  ((pred.zip target).map (fun pt => pt.1 * pt.2)).sum

/-- `dice_coeff` (train.py lines 38-44):
`(2*intersection + smooth) / (pred.sum() + target.sum() + smooth)`. -/
def dice_coeff (pred target : List ℚ) : ℚ :=
  (2 * inter pred target + smooth) / (pred.sum + target.sum + smooth)

/-- `iou_coeff` (train.py lines 48-53):
`(intersection + smooth) / (union + smooth)` with
`union = pred.sum() + target.sum() - intersection`. -/
def iou_coeff (pred target : List ℚ) : ℚ :=
  (inter pred target + smooth) /
    (pred.sum + target.sum - inter pred target + smooth)

/-- A flattened binary mask: every entry is 0 or 1. -/
def Binary (xs : List ℚ) : Prop := ∀ x ∈ xs, x = 0 ∨ x = 1

instance (xs : List ℚ) : Decidable (Binary xs) := by
  unfold Binary; infer_instance

/-! ## Safe Hausdorff distance (train.py lines 62-86) -/

/-- Coordinates `(i, j)` of the entries of row `i` that are equal to 1,
the row-wise part of `np.argwhere(mask.squeeze() == 1)`. -/
def rowOnes (i : ℕ) (row : List ℚ) : List (ℕ × ℕ) :=
  row.enum.filterMap (fun jc => if jc.2 = 1 then some (i, jc.1) else none)

/-- `np.argwhere(mask.squeeze() == 1)` on a two-dimensional mask, embedded
as the list of coordinates of entries equal to 1, in row-major order. -/
def argwhereOne (m : List (List ℚ)) : List (ℕ × ℕ) :=
  (m.enum.map (fun ir => rowOnes ir.1 ir.2)).flatten

/-- Euclidean distance between two pixel coordinates. -/
noncomputable def pdist (p q : ℕ × ℕ) : ℝ :=
  Real.sqrt (((p.1 : ℝ) - (q.1 : ℝ)) ^ 2 + ((p.2 : ℝ) - (q.2 : ℝ)) ^ 2)

/-- Minimum distance from point `p` to the point set `Q`
(0 when `Q` is empty; `safe_hausdorff` only calls it on non-empty sets). -/
noncomputable def minDistTo (p : ℕ × ℕ) : List (ℕ × ℕ) → ℝ
  | [] => 0
  | q :: qs => qs.foldl (fun acc r => min acc (pdist p r)) (pdist p q)

/-- `scipy.spatial.distance.directed_hausdorff(P, Q)[0]`: the maximum over
points of `P` of the minimum distance to `Q`. -/
noncomputable def directedHausdorff (P Q : List (ℕ × ℕ)) : ℝ :=
  match P with
  | [] => 0
  | p :: ps => ps.foldl (fun acc r => max acc (minDistTo r Q)) (minDistTo p Q)

/-- `mask.squeeze().shape` of a two-dimensional mask: `(rows, cols)`. -/
def maskShape (m : List (List ℚ)) : ℕ × ℕ := (m.length, (m.headD []).length)

/-- `safe_hausdorff` (train.py lines 62-86): 0 when both point sets are
empty, the image diagonal `sqrt(h**2 + w**2)` when exactly one is empty,
and the symmetrized directed Hausdorff distance otherwise. -/
noncomputable def safe_hausdorff (pred_mask gt_mask : List (List ℚ)) : ℝ :=
  let p_pts := argwhereOne pred_mask
  let m_pts := argwhereOne gt_mask
  if p_pts.isEmpty ∧ m_pts.isEmpty then 0
  else if p_pts.isEmpty ∨ m_pts.isEmpty then
    Real.sqrt (((maskShape pred_mask).1 : ℝ) ^ 2 + ((maskShape pred_mask).2 : ℝ) ^ 2)
  else max (directedHausdorff p_pts m_pts) (directedHausdorff m_pts p_pts)

/-- The mask has every entry equal to 0 (an all-zero mask). -/
def AllZero (m : List (List ℚ)) : Prop := ∀ row ∈ m, ∀ x ∈ row, x = 0

/-- The mask has at least one entry equal to 1 (a non-empty binary mask). -/
def HasOne (m : List (List ℚ)) : Prop := ∃ row ∈ m, ∃ x ∈ row, x = 1

instance (m : List (List ℚ)) : Decidable (AllZero m) := by
  unfold AllZero; infer_instance

instance (m : List (List ℚ)) : Decidable (HasOne m) := by
  unfold HasOne; infer_instance

/-! ## Early stopping (train.py lines 212-213, 452-480)

The epoch loop keeps `bestSessionVal` (initially `float("inf")`, embedded
as `Option ℚ` with `none` standing for infinity) and `patienceCtr`
(initially 0).  On `avgValLoss < bestSessionVal` the counter is reset to 0
and the best is updated; otherwise the counter is incremented and the loop
breaks when `patienceCtr >= early_stopping_patience`. -/

/-- Session state of the early-stopping logic. -/
structure ESState where
  best : Option ℚ
  ctr : ℕ
  deriving DecidableEq, Repr

/-- `avgValLoss < bestSessionVal` with `none` standing for `float("inf")`:
a finite loss always improves on infinity. -/
def esImproves (s : ESState) (l : ℚ) : Bool :=
  match s.best with
  | none => true
  | some b => decide (l < b)

/-- One epoch of the early-stopping bookkeeping (train.py lines 452-480).
Returns the new state and `true` when the loop continues, `false` when the
`patienceCtr >= early_stopping_patience` break fires. -/
def esStep (patience : ℕ) (s : ESState) (l : ℚ) : ESState × Bool :=
  if esImproves s l then (⟨some l, 0⟩, true)
  else
    let c := s.ctr + 1
    (⟨s.best, c⟩, decide (c < patience))

/-- The epoch loop restricted to the early-stopping bookkeeping: consumes
the per-epoch validation losses in order, stopping early when `esStep`
reports the break.  Returns the final state and the number of epochs that
were actually run. -/
def esRun (patience : ℕ) (s : ESState) : List ℚ → ESState × ℕ
  | [] => (s, 0)
  | l :: ls =>
    let r := esStep patience s l
    if r.2 then
      let rest := esRun patience r.1 ls
      (rest.1, rest.2 + 1)
    else (r.1, 1)

/-! ## Cross-session promotion of best.pth (train.py lines 220-251, 499-535) -/

/-- Baseline recomputation (train.py lines 225-235): when `best.pth`
exists, its validation loss on the current validation split is the mean of
the per-batch criterion values; otherwise `previousBestVal` stays
`float("inf")`, embedded as `none`. -/
def previousBestValOf (bestExists : Bool) (valBatchLosses : List ℚ) : Option ℚ :=
  if bestExists then some (valBatchLosses.sum / valBatchLosses.length) else none

/-- The state of the models directory relevant to promotion: the content
identity of `best.pth` (`none` when absent) and of
`best-current-session.pth`. -/
structure FileState where
  best : Option String
  sessionFile : String
  deriving DecidableEq, Repr

/-- Outcome of the end-of-run comparison (train.py lines 499-535). -/
structure PromotionOutcome where
  files : FileState
  statusLine : String
  improved : Bool
  deriving DecidableEq, Repr

/-- End-of-run promotion (train.py lines 508-535): `best.pth` is
overwritten by a copy of `best-current-session.pth` exactly when
`bestSessionVal < previousBestVal` (with `none` standing for infinity,
which every finite session loss beats), and the Terminal.log status line
says IMPROVED or NOT IMPROVED accordingly. -/
def finalizeRun (prevBest : Option ℚ) (bestSessionVal : ℚ) (fs : FileState) :
    PromotionOutcome :=
  let improved :=
    match prevBest with
    | none => true
    | some b => decide (bestSessionVal < b)
  { files := if improved then { fs with best := some fs.sessionFile } else fs
    statusLine :=
      "Status: " ++ (if improved then "IMPROVED — best.pth updated" else "NOT IMPROVED")
    improved := improved }

/-! ## MLflow health check and failure semantics (train.py lines 259-299,
566-580) -/

/-- Result of `check_mlflow_health`: whether it returned `True` (as
opposed to `sys.exit(1)`), the number of HTTP attempts made, and the
sleeps (in seconds) performed between attempts. -/
structure HealthResult where
  ok : Bool
  attempts : ℕ
  delays : List ℕ
  deriving DecidableEq, Repr

/-- The retry loop of `check_mlflow_health` (train.py lines 267-295):
`respond n` tells whether attempt number `n` got an HTTP 200; on failure
the loop sleeps `2 ** attempt` seconds before the next attempt, and after
`max_retries` failed attempts the function calls `sys.exit(1)`.
Structural recursion on the number of remaining attempts. -/
def healthLoop (respond : ℕ → Bool) (maxRetries : ℕ) :
    ℕ → ℕ → Bool × ℕ × List ℕ
  | _, 0 => (false, 0, [])
  | attempt, remaining + 1 =>
    if respond attempt then (true, 1, [])
    else if attempt < maxRetries then
      let r := healthLoop respond maxRetries (attempt + 1) remaining
      (r.1, r.2.1 + 1, 2 ^ attempt :: r.2.2)
    else (false, 1, [])

/-- `check_mlflow_health(uri)` (train.py lines 259-295) with
`max_retries=3`: `if not uri` (unset, i.e. `none`, or the empty string)
returns `True` immediately with no connectivity attempt; otherwise the
retry loop runs attempts 1..3 with doubling delays and exits fatally when
all fail. -/
def check_mlflow_health (uri : Option String) (respond : ℕ → Bool) : HealthResult :=
  match uri with
  | none => ⟨true, 0, []⟩
  | some u =>
    if u = "" then ⟨true, 0, []⟩
    else
      let r := healthLoop respond 3 1 3
      ⟨r.1, r.2.1, r.2.2⟩

/-- Observable outcome of the training process with respect to the
health-check and artifact-upload failure semantics. -/
inductive RunOutcome where
  /-- `sys.exit` with the given code before any training epoch ran. -/
  | exitedBeforeTraining : ℕ → RunOutcome
  /-- Training ran to completion: number of epochs run, whether the local
  Terminal.log was written, whether a warning was logged for a failed
  artifact upload, and whether the run is considered successful. -/
  | completed : ℕ → Bool → Bool → Bool → RunOutcome
  deriving DecidableEq, Repr

/-- Program order of train.py: `check_mlflow_health` runs at line 299,
before the epoch loop at line 322; the Terminal.log is written locally at
line 566 before the `mlflow.log_artifact` try block at lines 572-580,
whose exception handler prints a warning and continues, so an upload
failure after training never aborts the run. -/
def trainMain (uri : Option String) (respond : ℕ → Bool) (epochsToRun : ℕ)
    (uploadOk : Bool) : RunOutcome :=
  let h := check_mlflow_health uri respond
  if h.ok then RunOutcome.completed epochsToRun true (!uploadOk) true
  else RunOutcome.exitedBeforeTraining 1

/-! ## Paired augmentation pipeline (transforms_aug.py lines 32-92)

`TrainTransforms.__call__` is embedded symbolically: PIL-stage images are
trees of the spatial operations actually applied (resize, hflip, vflip,
rotate with an interpolation mode), and numpy-stage images add the
photometric operations (contrast stretch, median blur, brightness
jitter).  The stochastic gates consume one independent draw each. -/

/-- Interpolation mode of a resampling operation. -/
inductive Interp where
  | bilinear : Interp
  | nearest : Interp
  deriving DecidableEq, Repr

/-- A PIL-stage image as the tree of spatial operations applied to the
source array (transforms_aug.py lines 54-75). -/
inductive Pil where
  | src : Pil
  | frameResize : Pil → Interp → Pil
  | hflip : Pil → Pil
  | vflip : Pil → Pil
  | rotate : Pil → ℚ → Interp → Pil
  deriving DecidableEq, Repr

/-- A numpy-stage image: the PIL result plus the photometric operations of
transforms_aug.py lines 77-85. -/
inductive NpImg where
  | ofPil : Pil → NpImg
  | contrastStretch : NpImg → NpImg
  | medianBlur : NpImg → NpImg
  | jitter : NpImg → ℚ → NpImg
  deriving DecidableEq, Repr

/-- The parameters accepted by `TrainTransforms.__init__`
(transforms_aug.py line 36), with their declared defaults.  There is no
color-jitter probability field, matching the constructor signature. -/
structure TTConfig where
  p_hflip : ℚ := 1 / 2
  p_vflip : ℚ := 3 / 10
  rotation_degrees : ℚ := 15
  p_rotate : ℚ := 1 / 2
  deriving DecidableEq, Repr

/-- The independent uniform draws consumed by one `__call__`: one gate
draw per stochastic stage plus the unit draws for the rotation angle and
the brightness factor. -/
structure Draws where
  dHflip : ℚ
  dVflip : ℚ
  dRotate : ℚ
  angleU : ℚ
  dJitter : ℚ
  brightU : ℚ
  deriving DecidableEq, Repr

/-- The probability gating the brightness jitter in
`TrainTransforms.__call__` (transforms_aug.py line 83): the hardcoded
literal `0.3` in `random.random() < 0.3`. -/
def jitterGateProb : ℚ := 3 / 10

/-- `TrainTransforms.__call__` (transforms_aug.py lines 42-92): both
arrays are resized (image bilinear, mask nearest), each flip and the
rotation fire on one shared gate draw and apply the same parameter to
both, the photometric stage (contrast stretch, median blur, and the
jitter gated at the hardcoded 0.3) touches only the image, and the mask
is re-binarized afterwards. Returns the numpy-stage image and the final
mask PIL tree. -/
def ttCall (cfg : TTConfig) (d : Draws) : NpImg × Pil :=
  let image0 := Pil.frameResize Pil.src Interp.bilinear
  let mask0 := Pil.frameResize Pil.src Interp.nearest
  let image1 := if d.dHflip < cfg.p_hflip then Pil.hflip image0 else image0
  let mask1 := if d.dHflip < cfg.p_hflip then Pil.hflip mask0 else mask0
  let image2 := if d.dVflip < cfg.p_vflip then Pil.vflip image1 else image1
  let mask2 := if d.dVflip < cfg.p_vflip then Pil.vflip mask1 else mask1
  let angle := -cfg.rotation_degrees + 2 * cfg.rotation_degrees * d.angleU
  let image3 :=
    if d.dRotate < cfg.p_rotate then Pil.rotate image2 angle Interp.bilinear else image2
  let mask3 :=
    if d.dRotate < cfg.p_rotate then Pil.rotate mask2 angle Interp.nearest else mask2
  let img := NpImg.medianBlur (NpImg.contrastStretch (NpImg.ofPil image3))
  let brightness := 4 / 5 + 2 / 5 * d.brightU
  let img2 := if d.dJitter < jitterGateProb then NpImg.jitter img brightness else img
  (img2, mask3)

/-- `mask_np = (np.array(mask_pil) >= 127).astype(np.float32)`
(transforms_aug.py line 89): the returned mask tensor thresholds the
pixel intensities of the final mask PIL under any pixel semantics `sem`
of the PIL trees. -/
def maskTensor (maskPil : Pil) (sem : Pil → ℕ → ℕ) (px : ℕ) : ℚ :=
  if 127 ≤ sem maskPil px then 1 else 0

/-- A spatial operation stripped of its interpolation mode, for comparing
what was applied to the image against what was applied to the mask. -/
inductive SOp where
  | resized : SOp
  | flippedH : SOp
  | flippedV : SOp
  | rotated : ℚ → SOp
  deriving DecidableEq, Repr

/-- The sequence of spatial operations (with their parameters) applied to
a PIL-stage image, in application order. -/
def spatialTrace : Pil → List SOp
  | Pil.src => []
  | Pil.frameResize p _ => spatialTrace p ++ [SOp.resized]
  | Pil.hflip p => spatialTrace p ++ [SOp.flippedH]
  | Pil.vflip p => spatialTrace p ++ [SOp.flippedV]
  | Pil.rotate p a _ => spatialTrace p ++ [SOp.rotated a]

/-- The interpolation modes of the resampling operations (resize and
rotate) of a PIL tree, in application order. -/
def resampleInterps : Pil → List Interp
  | Pil.src => []
  | Pil.frameResize p i => resampleInterps p ++ [i]
  | Pil.hflip p => resampleInterps p
  | Pil.vflip p => resampleInterps p
  | Pil.rotate p _ i => resampleInterps p ++ [i]

/-- The PIL tree a numpy-stage image was built from. -/
def imgPil : NpImg → Pil
  | NpImg.ofPil p => p
  | NpImg.contrastStretch i => imgPil i
  | NpImg.medianBlur i => imgPil i
  | NpImg.jitter i _ => imgPil i

/-- A photometric operation, for tracing what was applied to the image
after the PIL stage. -/
inductive PhotoOp where
  | stretched : PhotoOp
  | blurred : PhotoOp
  | jittered : ℚ → PhotoOp
  deriving DecidableEq, Repr

/-- The photometric operations applied to a numpy-stage image, in
application order. -/
def photoTrace : NpImg → List PhotoOp
  | NpImg.ofPil _ => []
  | NpImg.contrastStretch i => photoTrace i ++ [PhotoOp.stretched]
  | NpImg.medianBlur i => photoTrace i ++ [PhotoOp.blurred]
  | NpImg.jitter i f => photoTrace i ++ [PhotoOp.jittered f]

/-- The keyword parameters accepted by `TrainTransforms.__init__`
(transforms_aug.py line 36). -/
def trainTransformsInitParams : List String :=
  ["p_hflip", "p_vflip", "rotation_degrees", "p_rotate"]

/-- The keyword arguments train.py passes to the `TrainTransforms`
constructor (train.py lines 164-170). -/
def trainPyTrainTransformsArgs : List String :=
  ["p_hflip", "p_vflip", "rotation_degrees", "p_rotate", "p_color_jitter"]

/-! ## Data Validator (devops/scripts/data-qa.py, exercised by
tests/test_data_qa.py) -/

/-- An image file of the scanned `images/` directory: filename stem,
whether it decodes, and its resolution. -/
structure ImageFile where
  stem : String
  decodes : Bool
  res : ℕ × ℕ
  deriving DecidableEq, Repr

/-- A mask file of the scanned `masks/` directory: filename stem, whether
it decodes, its resolution and its pixel intensities. -/
structure MaskFile where
  stem : String
  decodes : Bool
  res : ℕ × ℕ
  pixels : List ℕ
  deriving DecidableEq, Repr

/-- The scanned directory pair. -/
structure DataDir where
  hasImagesDir : Bool
  hasMasksDir : Bool
  images : List ImageFile
  masks : List MaskFile
  deriving DecidableEq, Repr

/-- Validator configuration: the fixed expected resolution and the
near-empty foreground threshold (a configuration constant without
documented derivation in the source). -/
structure QAConfig where
  expectedRes : ℕ × ℕ
  nearEmptyMin : ℕ
  deriving DecidableEq, Repr

/-- The Validation Report produced by the Data Validator. -/
structure QAReport where
  status : String
  image_count : ℕ
  mask_count : ℕ
  valid_pairs : ℕ
  errors : List String
  deriving DecidableEq, Repr

/-- Foreground pixel count of a mask: pixels with non-zero intensity. -/
def fgCount (m : MaskFile) : ℕ := (m.pixels.filter (fun v => v != 0)).length

/-- A mask is binary when every pixel intensity is 0 or 255. -/
def maskBinaryOk (m : MaskFile) : Bool :=
  m.pixels.all (fun v => v == 0 || v == 255)

/-- Errors contributed by one image file: decode failure, then resolution
mismatch against the fixed expected resolution. -/
def imageErrors (cfg : QAConfig) (f : ImageFile) : List String :=
  if f.decodes then
    if f.res = cfg.expectedRes then [] else ["Resolution mismatch: " ++ f.stem]
  else ["Failed to decode image: " ++ f.stem]

/-- Errors contributed by one mask file: decode failure, resolution
mismatch, non-binary intensities, empty mask, near-empty mask. -/
def maskErrors (cfg : QAConfig) (m : MaskFile) : List String :=
  if m.decodes then
    (if m.res = cfg.expectedRes then [] else ["Resolution mismatch: " ++ m.stem]) ++
    (if maskBinaryOk m then [] else ["Non-binary mask: " ++ m.stem]) ++
    (if fgCount m = 0 then ["Empty mask: " ++ m.stem]
     else if fgCount m < cfg.nearEmptyMin then ["Near-empty mask: " ++ m.stem]
     else [])
  else ["Failed to decode mask: " ++ m.stem]

/-- Errors for images with no mask of matching filename stem. -/
def missingMaskErrors (d : DataDir) : List String :=
  (d.images.filter (fun f => !(d.masks.any (fun m => m.stem == f.stem)))).map
    (fun f => "Missing masks: " ++ f.stem)

/-- Errors for masks with no image of matching filename stem. -/
def missingImageErrors (d : DataDir) : List String :=
  (d.masks.filter (fun m => !(d.images.any (fun f => f.stem == m.stem)))).map
    (fun m => "Missing images: " ++ m.stem)

/-- Number of image/mask pairs matched by filename stem. -/
def matchedPairs (d : DataDir) : ℕ :=
  (d.images.filter (fun f => d.masks.any (fun m => m.stem == f.stem))).length

/-- Modelled from the spec: `validate_data` of `devops/scripts/data-qa.py`
is not under src/ (only tests/test_data_qa.py exercises it), so the Data
Validator is modelled from spec section 4.1 and the expectations of those
tests.  All checks run to completion, every violation is accumulated into
one error list, counts are the scanned file counts and the stem-matched
pair count, and status is PASS exactly when
`image_count == mask_count == valid_pairs` and no error accumulated. -/
def validate_data (cfg : QAConfig) (d : DataDir) : QAReport :=
  let dirErrors :=
    (if d.hasImagesDir then [] else ["Images directory not found"]) ++
    (if d.hasMasksDir then [] else ["Masks directory not found"])
  let errors :=
    dirErrors ++ missingMaskErrors d ++ missingImageErrors d ++
    (d.images.map (imageErrors cfg)).flatten ++
    (d.masks.map (maskErrors cfg)).flatten
  let ic := d.images.length
  let mc := d.masks.length
  let vp := matchedPairs d
  { status := if ic = mc ∧ mc = vp ∧ errors = [] then "PASS" else "FAIL"
    image_count := ic
    mask_count := mc
    valid_pairs := vp
    errors := errors }

/-- A directory in which every file decodes at the expected resolution,
image and mask stems coincide pairwise, and every mask is binary with
foreground at or above the near-empty threshold. -/
def ValidDir (cfg : QAConfig) (d : DataDir) : Prop :=
  d.hasImagesDir = true ∧ d.hasMasksDir = true ∧
  d.images.map ImageFile.stem = d.masks.map MaskFile.stem ∧
  (∀ f ∈ d.images, f.decodes = true ∧ f.res = cfg.expectedRes) ∧
  (∀ m ∈ d.masks, m.decodes = true ∧ m.res = cfg.expectedRes ∧
    maskBinaryOk m = true ∧ 0 < fgCount m ∧ cfg.nearEmptyMin ≤ fgCount m)

instance (cfg : QAConfig) (d : DataDir) : Decidable (ValidDir cfg d) := by
  unfold ValidDir; infer_instance

/-- Validator configuration used by the near-empty counterexample: a 2 by
2 expected resolution with a near-empty threshold of 2 foreground pixels,
the scaled-down analogue of tests/test_data_qa.py line 172-190. -/
def qaCfgCex : QAConfig := ⟨(2, 2), 2⟩

/-- Directory with one matched, correctly sized, binary, non-empty pair
whose mask has a single foreground pixel, below the near-empty threshold
(the scaled-down analogue of test_near_empty_mask). -/
def qaDirCex : DataDir :=
  ⟨true, true, [⟨"a", true, (2, 2)⟩], [⟨"a", true, (2, 2), [255, 0, 0, 0]⟩]⟩

end WMS

namespace WMS

/-! ## Helper lemmas for the metric bounds -/

theorem sum_nonneg_of_binary {xs : List ℚ} (h : Binary xs) : 0 ≤ xs.sum := by
  induction xs with
  | nil => simp
  | cons x xs ih =>
    have hx := h x (by simp)
    have hxs : Binary xs := fun y hy => h y (by simp [hy])
    have h0 : (0:ℚ) ≤ x := by rcases hx with h1 | h1 <;> simp [h1]
    simpa using add_nonneg h0 (ih hxs)

theorem inter_nonneg {p t : List ℚ} (hp : Binary p) (ht : Binary t) :
    0 ≤ inter p t := by
  induction p generalizing t with
  | nil => simp [inter]
  | cons x xs ih =>
    cases t with
    | nil => simp [inter]
    | cons y ys =>
      have hx := hp x (by simp)
      have hy := ht y (by simp)
      have hxs : Binary xs := fun z hz => hp z (by simp [hz])
      have hys : Binary ys := fun z hz => ht z (by simp [hz])
      have hrec := ih hxs hys
      have hxy : (0:ℚ) ≤ x * y := by
        rcases hx with h1 | h1 <;> rcases hy with h2 | h2 <;> simp [h1, h2]
      have : inter (x :: xs) (y :: ys) = x * y + inter xs ys := by
        simp [inter]
      rw [this]
      exact add_nonneg hxy hrec

theorem inter_le_left {p t : List ℚ} (hp : Binary p) (ht : Binary t) :
    inter p t ≤ p.sum := by
  induction p generalizing t with
  | nil => simp [inter]
  | cons x xs ih =>
    cases t with
    | nil =>
      have : inter (x :: xs) [] = 0 := by simp [inter]
      rw [this]
      exact sum_nonneg_of_binary hp
    | cons y ys =>
      have hx := hp x (by simp)
      have hy := ht y (by simp)
      have hxs : Binary xs := fun z hz => hp z (by simp [hz])
      have hys : Binary ys := fun z hz => ht z (by simp [hz])
      have hrec := ih hxs hys
      have hxy : x * y ≤ x := by
        rcases hx with h1 | h1 <;> rcases hy with h2 | h2 <;> simp [h1, h2]
      have heq : inter (x :: xs) (y :: ys) = x * y + inter xs ys := by
        simp [inter]
      rw [heq, List.sum_cons]
      exact add_le_add hxy hrec

theorem inter_le_right {p t : List ℚ} (hp : Binary p) (ht : Binary t) :
    inter p t ≤ t.sum := by
  induction p generalizing t with
  | nil =>
    have : inter [] t = 0 := by simp [inter]
    rw [this]
    exact sum_nonneg_of_binary ht
  | cons x xs ih =>
    cases t with
    | nil => simp [inter]
    | cons y ys =>
      have hx := hp x (by simp)
      have hy := ht y (by simp)
      have hxs : Binary xs := fun z hz => hp z (by simp [hz])
      have hys : Binary ys := fun z hz => ht z (by simp [hz])
      have hrec := ih hxs hys
      have hxy : x * y ≤ y := by
        rcases hx with h1 | h1 <;> rcases hy with h2 | h2 <;> simp [h1, h2]
      have heq : inter (x :: xs) (y :: ys) = x * y + inter xs ys := by
        simp [inter]
      rw [heq, List.sum_cons]
      exact add_le_add hxy hrec

theorem inter_self {p : List ℚ} (hp : Binary p) : inter p p = p.sum := by
  induction p with
  | nil => simp [inter]
  | cons x xs ih =>
    have hx := hp x (by simp)
    have hxs : Binary xs := fun z hz => hp z (by simp [hz])
    have heq : inter (x :: xs) (x :: xs) = x * x + inter xs xs := by
      simp [inter]
    rw [heq, ih hxs, List.sum_cons]
    rcases hx with h1 | h1 <;> simp [h1]

theorem smooth_pos : (0:ℚ) < smooth := by norm_num [smooth]

theorem dice_mem_unit {P G : List ℚ} (hP : Binary P) (hG : Binary G) :
    0 ≤ dice_coeff P G ∧ dice_coeff P G ≤ 1 := by
  have hI := inter_nonneg hP hG
  have hIP := inter_le_left hP hG
  have hIG := inter_le_right hP hG
  have hSP := sum_nonneg_of_binary hP
  have hSG := sum_nonneg_of_binary hG
  have hs := smooth_pos
  constructor
  · apply div_nonneg <;> nlinarith
  · apply div_le_one_of_le₀ <;> nlinarith

theorem dice_self_of_binary {P : List ℚ} (hP : Binary P) : dice_coeff P P = 1 := by
  have hSP := sum_nonneg_of_binary hP
  have hs := smooth_pos
  rw [dice_coeff, inter_self hP]
  have h2 : 2 * P.sum + smooth = P.sum + P.sum + smooth := by ring
  rw [h2]
  exact div_self (by nlinarith)

theorem iou_mem_unit {P G : List ℚ} (hP : Binary P) (hG : Binary G) :
    0 ≤ iou_coeff P G ∧ iou_coeff P G ≤ 1 := by
  have hI := inter_nonneg hP hG
  have hIP := inter_le_left hP hG
  have hIG := inter_le_right hP hG
  have hSP := sum_nonneg_of_binary hP
  have hSG := sum_nonneg_of_binary hG
  have hs := smooth_pos
  constructor
  · apply div_nonneg <;> nlinarith
  · apply div_le_one_of_le₀ <;> nlinarith

theorem iou_self_of_binary {P : List ℚ} (hP : Binary P) : iou_coeff P P = 1 := by
  have hSP := sum_nonneg_of_binary hP
  have hs := smooth_pos
  rw [iou_coeff, inter_self hP]
  have h2 : P.sum + P.sum - P.sum + smooth = P.sum + smooth := by ring
  rw [h2]
  exact div_self (by nlinarith)

theorem iou_le_dice_of_binary {P G : List ℚ} (hP : Binary P) (hG : Binary G) :
    iou_coeff P G ≤ dice_coeff P G := by
  have hI := inter_nonneg hP hG
  have hIP := inter_le_left hP hG
  have hIG := inter_le_right hP hG
  have hSP := sum_nonneg_of_binary hP
  have hSG := sum_nonneg_of_binary hG
  have hs := smooth_pos
  rw [iou_coeff, dice_coeff]
  rw [div_le_div_iff₀ (by nlinarith) (by nlinarith)]
  nlinarith [mul_nonneg hI (by nlinarith : (0:ℚ) ≤ P.sum + G.sum - 2 * inter P G)]

/-- Claim C3: for equal-shape binary arrays, the epsilon-smoothed Dice
coefficient lies in the unit interval, equals 1 on identical masks, and
scores two entirely empty masks as a perfect 1. -/
theorem claim3_dice (P G : List ℚ) (hP : Binary P) (hG : Binary G)
    (hlen : P.length = G.length) :
    (0 ≤ dice_coeff P G ∧ dice_coeff P G ≤ 1) ∧
    dice_coeff P P = 1 ∧
    ∀ n : ℕ, dice_coeff (List.replicate n 0) (List.replicate n 0) = 1 := by
  refine ⟨dice_mem_unit hP hG, dice_self_of_binary hP, fun n => ?_⟩
  have hz : Binary (List.replicate n (0:ℚ)) := by
    intro x hx
    exact Or.inl (List.eq_of_mem_replicate hx)
  exact dice_self_of_binary hz

theorem claim3_dice_witness :
    Binary [1, 0] ∧ Binary [1, 1] ∧ ([1, 0] : List ℚ).length = ([1, 1] : List ℚ).length ∧
    ((0 ≤ dice_coeff [1, 0] [1, 1] ∧ dice_coeff [1, 0] [1, 1] ≤ 1) ∧
      dice_coeff [1, 0] [1, 0] = 1 ∧
      ∀ n : ℕ, dice_coeff (List.replicate n 0) (List.replicate n 0) = 1) :=
  ⟨by decide, by decide, rfl, claim3_dice [1, 0] [1, 1] (by decide) (by decide) rfl⟩

/-- Claim C4 (amended): the epsilon-smoothed IoU lies in the unit interval
and equals 1 on identical binary masks; moreover, contrary to the claim,
`iou <= dice` does hold for every pair of equal-shape binary arrays under
the implemented smoothed definitions. -/
theorem claim4_iou (P G : List ℚ) (hP : Binary P) (hG : Binary G)
    (hlen : P.length = G.length) :
    (0 ≤ iou_coeff P G ∧ iou_coeff P G ≤ 1) ∧
    iou_coeff P P = 1 ∧
    iou_coeff P G ≤ dice_coeff P G :=
  ⟨iou_mem_unit hP hG, iou_self_of_binary hP, iou_le_dice_of_binary hP hG⟩

theorem claim4_iou_witness :
    Binary [1, 1, 0] ∧ Binary [1, 0, 0] ∧
    ([1, 1, 0] : List ℚ).length = ([1, 0, 0] : List ℚ).length ∧
    ((0 ≤ iou_coeff [1, 1, 0] [1, 0, 0] ∧ iou_coeff [1, 1, 0] [1, 0, 0] ≤ 1) ∧
      iou_coeff [1, 1, 0] [1, 1, 0] = 1 ∧
      iou_coeff [1, 1, 0] [1, 0, 0] ≤ dice_coeff [1, 1, 0] [1, 0, 0]) :=
  ⟨by decide, by decide, rfl, claim4_iou [1, 1, 0] [1, 0, 0] (by decide) (by decide) rfl⟩

/-- Claim C4 counterexample to the claim as stated: no pair of equal-shape
binary arrays makes the smoothed IoU exceed the smoothed Dice. -/
theorem claim4_iou_counterexample :
    ¬ ∃ P G : List ℚ, Binary P ∧ Binary G ∧ P.length = G.length ∧
      dice_coeff P G < iou_coeff P G := by
  rintro ⟨P, G, hP, hG, hlen, hlt⟩
  exact absurd (iou_le_dice_of_binary hP hG) (not_le.mpr hlt)

/-! ## Lemmas on the foreground point extraction -/

theorem filterMap_enumFrom_ones_nil (i n : ℕ) (row : List ℚ) :
    (row.enumFrom n).filterMap
        (fun jc => if jc.2 = 1 then some (i, jc.1) else none) = [] ↔
      ∀ x ∈ row, x ≠ 1 := by
  induction row generalizing n with
  | nil => simp
  | cons x xs ih =>
    simp only [List.enumFrom_cons, List.filterMap_cons]
    by_cases hx : x = (1:ℚ)
    · simp [hx]
    · simpa [hx] using ih (n + 1)

theorem rowOnes_eq_nil_iff (i : ℕ) (row : List ℚ) :
    rowOnes i row = [] ↔ ∀ x ∈ row, x ≠ 1 := by
  have : row.enum = row.enumFrom 0 := rfl
  rw [rowOnes, this]
  exact filterMap_enumFrom_ones_nil i 0 row

theorem argwhere_enumFrom_nil (n : ℕ) (m : List (List ℚ)) :
    ((m.enumFrom n).map (fun ir => rowOnes ir.1 ir.2)).flatten = [] ↔
      ∀ row ∈ m, ∀ x ∈ row, x ≠ 1 := by
  induction m generalizing n with
  | nil => simp
  | cons row rows ih =>
    simp only [List.enumFrom_cons, List.map_cons, List.flatten_cons,
      List.append_eq_nil, List.mem_cons]
    rw [rowOnes_eq_nil_iff, ih (n + 1)]
    constructor
    · rintro ⟨h1, h2⟩ r hr
      rcases hr with rfl | hr
      · exact h1
      · exact h2 r hr
    · intro h
      exact ⟨h row (Or.inl rfl), fun r hr => h r (Or.inr hr)⟩

theorem argwhereOne_eq_nil_iff (m : List (List ℚ)) :
    argwhereOne m = [] ↔ ∀ row ∈ m, ∀ x ∈ row, x ≠ 1 := by
  have : m.enum = m.enumFrom 0 := rfl
  rw [argwhereOne, this]
  exact argwhere_enumFrom_nil 0 m

theorem argwhereOne_nil_of_allZero {m : List (List ℚ)} (h : AllZero m) :
    argwhereOne m = [] := by
  rw [argwhereOne_eq_nil_iff]
  intro row hr x hx
  rw [h row hr x hx]
  norm_num

theorem argwhereOne_ne_nil_of_hasOne {m : List (List ℚ)} (h : HasOne m) :
    argwhereOne m ≠ [] := by
  intro hnil
  obtain ⟨row, hr, x, hx, hx1⟩ := h
  exact (argwhereOne_eq_nil_iff m).mp hnil row hr x hx hx1

/-- Claim C2: `safe_hausdorff` is symmetric on same-shape masks, is
exactly 0 when both masks are all-zero, equals the image diagonal
`sqrt(h^2 + w^2)` exactly when exactly one mask is all-zero, and is the
maximum of the two directed Hausdorff distances when both are
non-empty. -/
theorem claim2_hausdorff (A B : List (List ℚ)) (hsh : maskShape A = maskShape B) :
    safe_hausdorff A B = safe_hausdorff B A ∧
    (AllZero A → AllZero B → safe_hausdorff A B = 0) ∧
    (AllZero A → HasOne B → safe_hausdorff A B =
      Real.sqrt (((maskShape A).1 : ℝ) ^ 2 + ((maskShape A).2 : ℝ) ^ 2)) ∧
    (HasOne A → AllZero B → safe_hausdorff A B =
      Real.sqrt (((maskShape A).1 : ℝ) ^ 2 + ((maskShape A).2 : ℝ) ^ 2)) ∧
    (HasOne A → HasOne B → safe_hausdorff A B =
      max (directedHausdorff (argwhereOne A) (argwhereOne B))
        (directedHausdorff (argwhereOne B) (argwhereOne A))) := by
  refine ⟨?_, ?_, ?_, ?_, ?_⟩
  · by_cases hA : argwhereOne A = [] <;> by_cases hB : argwhereOne B = []
    · simp [safe_hausdorff, hA, hB]
    · obtain ⟨b, bs, hb⟩ := List.exists_cons_of_ne_nil hB
      simp [safe_hausdorff, hA, hb, hsh]
    · obtain ⟨a, as, ha⟩ := List.exists_cons_of_ne_nil hA
      simp [safe_hausdorff, hB, ha, hsh]
    · obtain ⟨a, as, ha⟩ := List.exists_cons_of_ne_nil hA
      obtain ⟨b, bs, hb⟩ := List.exists_cons_of_ne_nil hB
      simp only [safe_hausdorff, ha, hb, List.isEmpty_cons, Bool.false_eq_true,
        and_self, if_false, false_and, false_or, or_self]
      rw [← ha, ← hb]
      exact max_comm _ _
  · intro h0A h0B
    simp [safe_hausdorff, argwhereOne_nil_of_allZero h0A,
      argwhereOne_nil_of_allZero h0B]
  · intro h0A h1B
    obtain ⟨b, bs, hb⟩ :=
      List.exists_cons_of_ne_nil (argwhereOne_ne_nil_of_hasOne h1B)
    simp [safe_hausdorff, argwhereOne_nil_of_allZero h0A, hb]
  · intro h1A h0B
    obtain ⟨a, as, ha⟩ :=
      List.exists_cons_of_ne_nil (argwhereOne_ne_nil_of_hasOne h1A)
    simp [safe_hausdorff, argwhereOne_nil_of_allZero h0B, ha]
  · intro h1A h1B
    obtain ⟨a, as, ha⟩ :=
      List.exists_cons_of_ne_nil (argwhereOne_ne_nil_of_hasOne h1A)
    obtain ⟨b, bs, hb⟩ :=
      List.exists_cons_of_ne_nil (argwhereOne_ne_nil_of_hasOne h1B)
    simp only [safe_hausdorff, ha, hb, List.isEmpty_cons, Bool.false_eq_true,
      and_self, if_false, false_and, false_or, or_self]

theorem claim2_hausdorff_witness :
    maskShape [[1, 0], [0, 0]] = maskShape [[0, 0], [0, 1]] ∧
    (safe_hausdorff [[1, 0], [0, 0]] [[0, 0], [0, 1]] =
        safe_hausdorff [[0, 0], [0, 1]] [[1, 0], [0, 0]] ∧
      (AllZero [[1, 0], [0, 0]] → AllZero [[0, 0], [0, 1]] →
        safe_hausdorff [[1, 0], [0, 0]] [[0, 0], [0, 1]] = 0) ∧
      (AllZero [[1, 0], [0, 0]] → HasOne [[0, 0], [0, 1]] →
        safe_hausdorff [[1, 0], [0, 0]] [[0, 0], [0, 1]] =
          Real.sqrt (((maskShape [[1, 0], [0, 0]]).1 : ℝ) ^ 2 +
            ((maskShape [[1, 0], [0, 0]]).2 : ℝ) ^ 2)) ∧
      (HasOne [[1, 0], [0, 0]] → AllZero [[0, 0], [0, 1]] →
        safe_hausdorff [[1, 0], [0, 0]] [[0, 0], [0, 1]] =
          Real.sqrt (((maskShape [[1, 0], [0, 0]]).1 : ℝ) ^ 2 +
            ((maskShape [[1, 0], [0, 0]]).2 : ℝ) ^ 2)) ∧
      (HasOne [[1, 0], [0, 0]] → HasOne [[0, 0], [0, 1]] →
        safe_hausdorff [[1, 0], [0, 0]] [[0, 0], [0, 1]] =
          max (directedHausdorff (argwhereOne [[1, 0], [0, 0]])
              (argwhereOne [[0, 0], [0, 1]]))
            (directedHausdorff (argwhereOne [[0, 0], [0, 1]])
              (argwhereOne [[1, 0], [0, 0]])))) :=
  ⟨by decide, claim2_hausdorff [[1, 0], [0, 0]] [[0, 0], [0, 1]] (by decide)⟩

/-! ## Early stopping -/

theorem esRun_halts (patience : ℕ) (s : ESState) (losses : List ℚ)
    (hinv : s.ctr < patience) :
    (esRun patience s losses).2 ≤ losses.length ∧
    ((esRun patience s losses).2 < losses.length →
      (esRun patience s losses).1.ctr = patience) := by
  induction losses generalizing s with
  | nil => simp [esRun]
  | cons l ls ih =>
    by_cases himp : esImproves s l = true
    · have hstep : esStep patience s l = (⟨some l, 0⟩, true) := by
        simp [esStep, himp]
      have ih2 := ih ⟨some l, 0⟩ (lt_of_le_of_lt (Nat.zero_le s.ctr) hinv)
      simp only [esRun, hstep, if_true]
      exact ⟨Nat.succ_le_succ ih2.1, fun hlt => ih2.2 (Nat.lt_of_succ_lt_succ hlt)⟩
    · by_cases hc : s.ctr + 1 < patience
      · have hstep : esStep patience s l = (⟨s.best, s.ctr + 1⟩, true) := by
          simp [esStep, himp, hc]
        have ih2 := ih ⟨s.best, s.ctr + 1⟩ hc
        simp only [esRun, hstep, if_true]
        exact ⟨Nat.succ_le_succ ih2.1, fun hlt => ih2.2 (Nat.lt_of_succ_lt_succ hlt)⟩
      · have hstep : esStep patience s l = (⟨s.best, s.ctr + 1⟩, false) := by
          simp [esStep, himp, hc]
        simp only [esRun, hstep, Bool.false_eq_true, if_false]
        refine ⟨Nat.succ_le_succ (Nat.zero_le _), fun _ => ?_⟩
        show s.ctr + 1 = patience
        omega

/-- Claim C6: the early-stopping counter is reset to 0 on every epoch that
strictly improves the session-best validation loss, incremented by one on
every other epoch, and the epoch loop halts as soon as the counter reaches
the configured patience threshold. -/
theorem claim6_early_stopping (patience : ℕ) (hp : 0 < patience) :
    (∀ (s : ESState) (l : ℚ), esImproves s l = true →
      esStep patience s l = (⟨some l, 0⟩, true)) ∧
    (∀ (s : ESState) (l : ℚ), esImproves s l = false →
      (esStep patience s l).1.ctr = s.ctr + 1 ∧
      (esStep patience s l).1.best = s.best) ∧
    (∀ (s : ESState) (l : ℚ), (esStep patience s l).2 = false ↔
      esImproves s l = false ∧ patience ≤ s.ctr + 1) ∧
    ∀ losses : List ℚ,
      (esRun patience ⟨none, 0⟩ losses).2 ≤ losses.length ∧
      ((esRun patience ⟨none, 0⟩ losses).2 < losses.length →
        (esRun patience ⟨none, 0⟩ losses).1.ctr = patience) := by
  refine ⟨?_, ?_, ?_, fun losses => esRun_halts patience ⟨none, 0⟩ losses hp⟩
  · intro s l h
    simp [esStep, h]
  · intro s l h
    simp [esStep, h]
  · intro s l
    cases h : esImproves s l <;> simp [esStep, h, Nat.not_lt]

theorem claim6_early_stopping_witness :
    0 < 2 ∧
    ((∀ (s : ESState) (l : ℚ), esImproves s l = true →
        esStep 2 s l = (⟨some l, 0⟩, true)) ∧
      (∀ (s : ESState) (l : ℚ), esImproves s l = false →
        (esStep 2 s l).1.ctr = s.ctr + 1 ∧ (esStep 2 s l).1.best = s.best) ∧
      (∀ (s : ESState) (l : ℚ), (esStep 2 s l).2 = false ↔
        esImproves s l = false ∧ 2 ≤ s.ctr + 1) ∧
      ∀ losses : List ℚ,
        (esRun 2 ⟨none, 0⟩ losses).2 ≤ losses.length ∧
        ((esRun 2 ⟨none, 0⟩ losses).2 < losses.length →
          (esRun 2 ⟨none, 0⟩ losses).1.ctr = 2)) :=
  ⟨by decide, claim6_early_stopping 2 (by decide)⟩

/-! ## Promotion of best.pth -/

/-- Claim C1: when a previous best.pth exists, its baseline validation
loss is freshly recomputed as the mean criterion over the current
validation batches, best.pth is overwritten at the end of the run exactly
when the session-best validation loss is strictly lower than that
baseline, and otherwise the file is left unchanged and the session log
status line says NOT IMPROVED. -/
theorem claim1_promotion (valBatchLosses : List ℚ) (bestSessionVal : ℚ)
    (fs : FileState) (oldContent : String) (hold : fs.best = some oldContent) :
    previousBestValOf true valBatchLosses =
      some (valBatchLosses.sum / valBatchLosses.length) ∧
    ((finalizeRun (previousBestValOf true valBatchLosses) bestSessionVal fs).improved =
        true ↔
      bestSessionVal < valBatchLosses.sum / valBatchLosses.length) ∧
    (bestSessionVal < valBatchLosses.sum / valBatchLosses.length →
      (finalizeRun (previousBestValOf true valBatchLosses) bestSessionVal fs).files.best =
        some fs.sessionFile) ∧
    (¬ bestSessionVal < valBatchLosses.sum / valBatchLosses.length →
      (finalizeRun (previousBestValOf true valBatchLosses) bestSessionVal fs).files = fs ∧
      (finalizeRun (previousBestValOf true valBatchLosses) bestSessionVal fs).files.best =
        some oldContent ∧
      (finalizeRun (previousBestValOf true valBatchLosses) bestSessionVal fs).statusLine =
        "Status: NOT IMPROVED") := by
  refine ⟨rfl, ?_, ?_, ?_⟩ <;>
    by_cases h : bestSessionVal < valBatchLosses.sum / valBatchLosses.length <;>
      simp [finalizeRun, previousBestValOf, h, hold]

theorem claim1_promotion_witness :
    (⟨some "best-v1", "best-current-session"⟩ : FileState).best = some "best-v1" ∧
    (previousBestValOf true [1/5, 1/5] = some (([1/5, 1/5] : List ℚ).sum / ([1/5, 1/5] : List ℚ).length) ∧
      ((finalizeRun (previousBestValOf true [1/5, 1/5]) (1/4)
          ⟨some "best-v1", "best-current-session"⟩).improved = true ↔
        (1/4 : ℚ) < ([1/5, 1/5] : List ℚ).sum / ([1/5, 1/5] : List ℚ).length) ∧
      ((1/4 : ℚ) < ([1/5, 1/5] : List ℚ).sum / ([1/5, 1/5] : List ℚ).length →
        (finalizeRun (previousBestValOf true [1/5, 1/5]) (1/4)
          ⟨some "best-v1", "best-current-session"⟩).files.best =
          some (⟨some "best-v1", "best-current-session"⟩ : FileState).sessionFile) ∧
      (¬ (1/4 : ℚ) < ([1/5, 1/5] : List ℚ).sum / ([1/5, 1/5] : List ℚ).length →
        (finalizeRun (previousBestValOf true [1/5, 1/5]) (1/4)
          ⟨some "best-v1", "best-current-session"⟩).files =
          ⟨some "best-v1", "best-current-session"⟩ ∧
        (finalizeRun (previousBestValOf true [1/5, 1/5]) (1/4)
          ⟨some "best-v1", "best-current-session"⟩).files.best = some "best-v1" ∧
        (finalizeRun (previousBestValOf true [1/5, 1/5]) (1/4)
          ⟨some "best-v1", "best-current-session"⟩).statusLine =
          "Status: NOT IMPROVED")) :=
  ⟨rfl, claim1_promotion [1/5, 1/5] (1/4) ⟨some "best-v1", "best-current-session"⟩
    "best-v1" rfl⟩

/-! ## MLflow failure semantics -/

/-- Claim C9: an unreachable tracking backend before the run is fatal
after exactly 3 attempts with doubling delays of 2 and 4 seconds, exiting
with status 1 before any training epoch; an artifact-upload failure after
a successful run leaves the run completed, with the log kept locally and a
warning recorded. -/
theorem claim9_failure_semantics (uri : String) (huri : uri ≠ "")
    (respond : ℕ → Bool) (hfail : ∀ n, respond n = false)
    (epochsToRun : ℕ) (uploadOk : Bool) :
    check_mlflow_health (some uri) respond = ⟨false, 3, [2, 4]⟩ ∧
    trainMain (some uri) respond epochsToRun uploadOk =
      RunOutcome.exitedBeforeTraining 1 ∧
    (∀ (uri2 : Option String) (respond2 : ℕ → Bool) (e : ℕ),
      (check_mlflow_health uri2 respond2).ok = true →
      trainMain uri2 respond2 e false = RunOutcome.completed e true true true) := by
  have hc : check_mlflow_health (some uri) respond = ⟨false, 3, [2, 4]⟩ := by
    simp [check_mlflow_health, healthLoop, hfail, huri]
  refine ⟨hc, by simp [trainMain, hc], ?_⟩
  intro uri2 respond2 e hok
  simp [trainMain, hok]

theorem claim9_failure_semantics_witness :
    ("http://mlflow:5000" : String) ≠ "" ∧
    (∀ n : ℕ, (fun _ : ℕ => false) n = false) ∧
    (check_mlflow_health (some "http://mlflow:5000") (fun _ => false) =
        ⟨false, 3, [2, 4]⟩ ∧
      trainMain (some "http://mlflow:5000") (fun _ => false) 5 false =
        RunOutcome.exitedBeforeTraining 1 ∧
      (∀ (uri2 : Option String) (respond2 : ℕ → Bool) (e : ℕ),
        (check_mlflow_health uri2 respond2).ok = true →
        trainMain uri2 respond2 e false = RunOutcome.completed e true true true)) :=
  ⟨by decide, fun _ => rfl,
    claim9_failure_semantics "http://mlflow:5000" (by decide) (fun _ => false)
      (fun _ => rfl) 5 false⟩

/-- Claim C10: with no tracking URI configured (unset or empty), the
pre-run health check makes no connectivity attempt and succeeds
immediately, training proceeds, and the fatal-exit path is reachable only
with a non-empty URI set. -/
theorem claim10_local_tracking (uri : Option String)
    (huri : uri = none ∨ uri = some "") (respond : ℕ → Bool)
    (epochsToRun : ℕ) (uploadOk : Bool) :
    check_mlflow_health uri respond = ⟨true, 0, []⟩ ∧
    trainMain uri respond epochsToRun uploadOk =
      RunOutcome.completed epochsToRun true (!uploadOk) true ∧
    (∀ (uri2 : Option String) (respond2 : ℕ → Bool),
      (check_mlflow_health uri2 respond2).ok = false →
      uri2 ≠ none ∧ uri2 ≠ some "") := by
  have hc : check_mlflow_health uri respond = ⟨true, 0, []⟩ := by
    rcases huri with rfl | rfl <;> simp [check_mlflow_health]
  refine ⟨hc, by simp [trainMain, hc], ?_⟩
  intro uri2 respond2 hok
  constructor
  · rintro rfl
    simp [check_mlflow_health] at hok
  · rintro rfl
    simp [check_mlflow_health] at hok

theorem claim10_local_tracking_witness :
    ((none : Option String) = none ∨ (none : Option String) = some "") ∧
    (check_mlflow_health none (fun _ => false) = ⟨true, 0, []⟩ ∧
      trainMain none (fun _ => false) 4 true = RunOutcome.completed 4 true (!true) true ∧
      (∀ (uri2 : Option String) (respond2 : ℕ → Bool),
        (check_mlflow_health uri2 respond2).ok = false →
        uri2 ≠ none ∧ uri2 ≠ some "")) :=
  ⟨Or.inl rfl, claim10_local_tracking none (Or.inl rfl) (fun _ => false) 4 true⟩

/-! ## Paired augmentation -/

/-- Claim C7: the returned mask tensor holds only the values 0 and 1
(re-binarized by the 127-threshold after all resampling), the image and
the mask receive exactly the same sequence of spatial operations with the
same gate draws and the same rotation angle (the mask resampled with
nearest-neighbor interpolation throughout), and the photometric
operations (contrast stretch, median blur, brightness jitter) are applied
to the image only. -/
theorem claim7_paired_augmentation (cfg : TTConfig) (d : Draws)
    (sem : Pil → ℕ → ℕ) (px : ℕ) :
    (maskTensor (ttCall cfg d).2 sem px = 0 ∨ maskTensor (ttCall cfg d).2 sem px = 1) ∧
    spatialTrace (imgPil (ttCall cfg d).1) = spatialTrace (ttCall cfg d).2 ∧
    (∀ i ∈ resampleInterps (ttCall cfg d).2, i = Interp.nearest) ∧
    photoTrace (ttCall cfg d).1 =
      [PhotoOp.stretched, PhotoOp.blurred] ++
        (if d.dJitter < jitterGateProb then
          [PhotoOp.jittered (4 / 5 + 2 / 5 * d.brightU)] else []) := by
  refine ⟨?_, ?_, ?_, ?_⟩
  · unfold maskTensor
    split_ifs <;> simp
  · unfold ttCall
    split_ifs <;>
      simp [spatialTrace, imgPil]
  · unfold ttCall
    split_ifs <;>
      simp [resampleInterps]
  · unfold ttCall
    split_ifs <;>
      simp [photoTrace]

/-- Claim C8 evaluated on the code: train.py passes `p_color_jitter` to
the `TrainTransforms` constructor, but the constructor in
transforms_aug.py accepts no such parameter, and the brightness-jitter
stage is gated by the hardcoded probability 0.3, independent of any
configured value. -/
theorem claim8_jitter_gate_hardcoded :
    "p_color_jitter" ∈ trainPyTrainTransformsArgs ∧
    "p_color_jitter" ∉ trainTransformsInitParams ∧
    jitterGateProb = 3 / 10 ∧
    ∀ (cfg : TTConfig) (d : Draws),
      ((∃ f, PhotoOp.jittered f ∈ photoTrace (ttCall cfg d).1) ↔
        d.dJitter < 3 / 10) := by
  refine ⟨by decide, by decide, rfl, ?_⟩
  intro cfg d
  unfold ttCall jitterGateProb
  split_ifs <;> simp [photoTrace] <;> linarith

/-! ## Data Validator -/

theorem flatten_map_eq_nil {α β : Type} (l : List α) (g : α → List β)
    (h : ∀ a ∈ l, g a = []) : (l.map g).flatten = [] := by
  induction l with
  | nil => simp
  | cons x xs ih =>
    simp only [List.map_cons, List.flatten_cons, List.append_eq_nil]
    exact ⟨h x (List.mem_cons_self x xs), ih fun a ha => h a (List.mem_cons_of_mem x ha)⟩

theorem stems_mem_of_validDir {cfg : QAConfig} {d : DataDir} (hv : ValidDir cfg d) :
    ∀ f ∈ d.images, (d.masks.any fun m => m.stem == f.stem) = true := by
  intro f hf
  have hstem : f.stem ∈ d.masks.map MaskFile.stem := by
    rw [← hv.2.2.1]
    exact List.mem_map_of_mem ImageFile.stem hf
  obtain ⟨m, hm, hms⟩ := List.mem_map.mp hstem
  exact List.any_eq_true.mpr ⟨m, hm, by simp [hms]⟩

theorem stems_mem_of_validDir_masks {cfg : QAConfig} {d : DataDir}
    (hv : ValidDir cfg d) :
    ∀ m ∈ d.masks, (d.images.any fun f => f.stem == m.stem) = true := by
  intro m hm
  have hstem : m.stem ∈ d.images.map ImageFile.stem := by
    rw [hv.2.2.1]
    exact List.mem_map_of_mem MaskFile.stem hm
  obtain ⟨f, hf, hfs⟩ := List.mem_map.mp hstem
  exact List.any_eq_true.mpr ⟨f, hf, by simp [hfs]⟩

theorem validate_data_errors_nil {cfg : QAConfig} {d : DataDir}
    (hv : ValidDir cfg d) : (validate_data cfg d).errors = [] := by
  obtain ⟨h1, h2, h3, h4, h5⟩ := hv
  have hmm : missingMaskErrors d = [] := by
    unfold missingMaskErrors
    rw [List.map_eq_nil_iff, List.filter_eq_nil_iff]
    intro f hf
    simp [stems_mem_of_validDir ⟨h1, h2, h3, h4, h5⟩ f hf]
  have hmi : missingImageErrors d = [] := by
    unfold missingImageErrors
    rw [List.map_eq_nil_iff, List.filter_eq_nil_iff]
    intro m hm
    simp [stems_mem_of_validDir_masks ⟨h1, h2, h3, h4, h5⟩ m hm]
  have hie : (d.images.map (imageErrors cfg)).flatten = [] := by
    apply flatten_map_eq_nil
    intro f hf
    obtain ⟨hd, hr⟩ := h4 f hf
    simp [imageErrors, hd, hr]
  have hme : (d.masks.map (maskErrors cfg)).flatten = [] := by
    apply flatten_map_eq_nil
    intro m hm
    obtain ⟨hd, hr, hb, hfg, hmin⟩ := h5 m hm
    simp [maskErrors, hd, hr, hb, Nat.pos_iff_ne_zero.mp hfg, Nat.not_lt.mpr hmin]
  simp [validate_data, h1, h2, hmm, hmi, hie, hme]

theorem validate_data_matched_of_validDir {cfg : QAConfig} {d : DataDir}
    (hv : ValidDir cfg d) : matchedPairs d = d.images.length := by
  unfold matchedPairs
  rw [List.filter_eq_self.mpr (stems_mem_of_validDir hv)]

/-- Claim C5 (amended): the Validation Report status is PASS exactly when
image count, mask count and valid-pair count agree and no error
accumulated; and every directory of N matched, correctly sized, binary
pairs whose masks have foreground at or above the near-empty threshold
yields PASS with all three counts equal to N and zero errors. -/
theorem claim5_validator (cfg : QAConfig) (d : DataDir) :
    ((validate_data cfg d).status = "PASS" ↔
      ((validate_data cfg d).image_count = (validate_data cfg d).mask_count ∧
        (validate_data cfg d).mask_count = (validate_data cfg d).valid_pairs ∧
        (validate_data cfg d).errors = [])) ∧
    (ValidDir cfg d →
      (validate_data cfg d).status = "PASS" ∧
      (validate_data cfg d).image_count = d.images.length ∧
      (validate_data cfg d).mask_count = d.images.length ∧
      (validate_data cfg d).valid_pairs = d.images.length ∧
      (validate_data cfg d).errors = []) := by
  have hstatus : (validate_data cfg d).status =
      if ((validate_data cfg d).image_count = (validate_data cfg d).mask_count ∧
          (validate_data cfg d).mask_count = (validate_data cfg d).valid_pairs ∧
          (validate_data cfg d).errors = []) then "PASS" else "FAIL" := rfl
  constructor
  · rw [hstatus]
    split_ifs with h
    · simp [h]
    · simp [h]
  · intro hv
    have herr : (validate_data cfg d).errors = [] := validate_data_errors_nil hv
    have hmc : (validate_data cfg d).mask_count = d.images.length := by
      have := congrArg List.length hv.2.2.1
      simpa [validate_data] using this.symm
    have hvp : (validate_data cfg d).valid_pairs = d.images.length :=
      validate_data_matched_of_validDir hv
    have hic : (validate_data cfg d).image_count = d.images.length := rfl
    have hcond : (validate_data cfg d).status = "PASS" := by
      rw [hstatus, if_pos ⟨hic.trans hmc.symm, hmc.trans hvp.symm, herr⟩]
    exact ⟨hcond, hic, hmc, hvp, herr⟩

theorem claim5_validator_witness :
    ValidDir ⟨(2, 2), 1⟩
      ⟨true, true, [⟨"a", true, (2, 2)⟩, ⟨"b", true, (2, 2)⟩],
        [⟨"a", true, (2, 2), [255, 255, 0, 0]⟩, ⟨"b", true, (2, 2), [0, 255, 255, 255]⟩]⟩ ∧
    (((validate_data ⟨(2, 2), 1⟩
        ⟨true, true, [⟨"a", true, (2, 2)⟩, ⟨"b", true, (2, 2)⟩],
          [⟨"a", true, (2, 2), [255, 255, 0, 0]⟩, ⟨"b", true, (2, 2), [0, 255, 255, 255]⟩]⟩).status =
          "PASS" ↔
      ((validate_data ⟨(2, 2), 1⟩
          ⟨true, true, [⟨"a", true, (2, 2)⟩, ⟨"b", true, (2, 2)⟩],
            [⟨"a", true, (2, 2), [255, 255, 0, 0]⟩, ⟨"b", true, (2, 2), [0, 255, 255, 255]⟩]⟩).image_count =
        (validate_data ⟨(2, 2), 1⟩
          ⟨true, true, [⟨"a", true, (2, 2)⟩, ⟨"b", true, (2, 2)⟩],
            [⟨"a", true, (2, 2), [255, 255, 0, 0]⟩, ⟨"b", true, (2, 2), [0, 255, 255, 255]⟩]⟩).mask_count ∧
        (validate_data ⟨(2, 2), 1⟩
          ⟨true, true, [⟨"a", true, (2, 2)⟩, ⟨"b", true, (2, 2)⟩],
            [⟨"a", true, (2, 2), [255, 255, 0, 0]⟩, ⟨"b", true, (2, 2), [0, 255, 255, 255]⟩]⟩).mask_count =
        (validate_data ⟨(2, 2), 1⟩
          ⟨true, true, [⟨"a", true, (2, 2)⟩, ⟨"b", true, (2, 2)⟩],
            [⟨"a", true, (2, 2), [255, 255, 0, 0]⟩, ⟨"b", true, (2, 2), [0, 255, 255, 255]⟩]⟩).valid_pairs ∧
        (validate_data ⟨(2, 2), 1⟩
          ⟨true, true, [⟨"a", true, (2, 2)⟩, ⟨"b", true, (2, 2)⟩],
            [⟨"a", true, (2, 2), [255, 255, 0, 0]⟩, ⟨"b", true, (2, 2), [0, 255, 255, 255]⟩]⟩).errors = [])) ∧
    (ValidDir ⟨(2, 2), 1⟩
        ⟨true, true, [⟨"a", true, (2, 2)⟩, ⟨"b", true, (2, 2)⟩],
          [⟨"a", true, (2, 2), [255, 255, 0, 0]⟩, ⟨"b", true, (2, 2), [0, 255, 255, 255]⟩]⟩ →
      (validate_data ⟨(2, 2), 1⟩
        ⟨true, true, [⟨"a", true, (2, 2)⟩, ⟨"b", true, (2, 2)⟩],
          [⟨"a", true, (2, 2), [255, 255, 0, 0]⟩, ⟨"b", true, (2, 2), [0, 255, 255, 255]⟩]⟩).status = "PASS" ∧
      (validate_data ⟨(2, 2), 1⟩
        ⟨true, true, [⟨"a", true, (2, 2)⟩, ⟨"b", true, (2, 2)⟩],
          [⟨"a", true, (2, 2), [255, 255, 0, 0]⟩, ⟨"b", true, (2, 2), [0, 255, 255, 255]⟩]⟩).image_count = 2 ∧
      (validate_data ⟨(2, 2), 1⟩
        ⟨true, true, [⟨"a", true, (2, 2)⟩, ⟨"b", true, (2, 2)⟩],
          [⟨"a", true, (2, 2), [255, 255, 0, 0]⟩, ⟨"b", true, (2, 2), [0, 255, 255, 255]⟩]⟩).mask_count = 2 ∧
      (validate_data ⟨(2, 2), 1⟩
        ⟨true, true, [⟨"a", true, (2, 2)⟩, ⟨"b", true, (2, 2)⟩],
          [⟨"a", true, (2, 2), [255, 255, 0, 0]⟩, ⟨"b", true, (2, 2), [0, 255, 255, 255]⟩]⟩).valid_pairs = 2 ∧
      (validate_data ⟨(2, 2), 1⟩
        ⟨true, true, [⟨"a", true, (2, 2)⟩, ⟨"b", true, (2, 2)⟩],
          [⟨"a", true, (2, 2), [255, 255, 0, 0]⟩, ⟨"b", true, (2, 2), [0, 255, 255, 255]⟩]⟩).errors = [])) := by
  constructor
  · decide
  · exact claim5_validator ⟨(2, 2), 1⟩
      ⟨true, true, [⟨"a", true, (2, 2)⟩, ⟨"b", true, (2, 2)⟩],
        [⟨"a", true, (2, 2), [255, 255, 0, 0]⟩, ⟨"b", true, (2, 2), [0, 255, 255, 255]⟩]⟩

/-- Claim C5 counterexample to the claim as stated: a directory with one
matched, correctly sized, binary, non-empty pair whose mask foreground
lies below the near-empty threshold is reported FAIL with a non-empty
error list, not PASS. -/
theorem claim5_validator_counterexample :
    qaDirCex.images.map ImageFile.stem = qaDirCex.masks.map MaskFile.stem ∧
    (∀ f ∈ qaDirCex.images, f.decodes = true ∧ f.res = qaCfgCex.expectedRes) ∧
    (∀ m ∈ qaDirCex.masks, m.decodes = true ∧ m.res = qaCfgCex.expectedRes ∧
      maskBinaryOk m = true ∧ 0 < fgCount m) ∧
    (validate_data qaCfgCex qaDirCex).status = "FAIL" ∧
    (validate_data qaCfgCex qaDirCex).errors = ["Near-empty mask: a"] := by
  decide

end WMS
